import Mathlib

/-!
Verification development for the production-line ETL pipeline
(`src/etl.py`, `src/db.py`): CSV extraction, sensor cleaning,
standardization, quality normalization, hourly aggregation and the
idempotent SQLite load layer.

Modeling conventions (shallow embedding):
  * A pandas dataframe is modeled as a list of typed rows together with
    boolean flags recording which optional columns exist; the per-claim
    frame types carry exactly the columns the modeled functions touch.
  * Timestamps are integers (seconds); `pd.to_datetime(errors="coerce")`
    is modeled by rows carrying `Option Int` (none = NaT, an unparseable
    or missing timestamp).
  * Float sensor values are rationals; NaN is `none` in `Option Rat`.
    A raw CSV cell is `Cell`: a number, a text with its numeric parse
    (modeling `pd.to_numeric(errors="coerce")` on that text), or null.
  * Python string operations are re-implemented over the character list
    of a `String` (ASCII case folding, whitespace stripping), because the
    pipeline only manipulates ASCII identifiers and keywords.
  * Fallible code returns `Except String`; a raised `KeyError` or
    `ValueError` becomes `.error`.
-/

namespace Etl

/-- ASCII lowercase of one character; models Python `str.lower` on the
ASCII data this pipeline handles. -/
def lowChar (c : Char) : Char :=
  if 65 ≤ c.toNat ∧ c.toNat ≤ 90 then Char.ofNat (c.toNat + 32) else c

/-- Model of `str.lower`. -/
def lowerStr (s : String) : String := String.mk (s.data.map lowChar)

/-- Whitespace test used by the model of `str.strip`. -/
def wsChar (c : Char) : Bool := c = ' ' || c = '\t' || c = '\n' || c = '\r'

/-- Model of `str.strip`: drop leading and trailing whitespace. -/
def stripStr (s : String) : String :=
  String.mk (((s.data.dropWhile wsChar).reverse.dropWhile wsChar).reverse)

/-- Model of `str.startswith`. -/
def beginsWith (p s : String) : Bool := p.data.isPrefixOf s.data

/-- Lexicographic order on character lists by code point; models Python
string comparison, which `sort_values` uses for object columns. -/
def charListLE : List Char → List Char → Bool
  | [], _ => true
  | _ :: _, [] => false
  | a :: as, b :: bs =>
    if a.toNat < b.toNat then true
    else if b.toNat < a.toNat then false
    else charListLE as bs

/-- A raw `machine_id` cell, as seen by `_to_machine_str` in `etl.py`.
`null` is a missing value (`pd.isna`).  `v s asNum` is any other cell,
rendered by `str(x)` as `s`; `asNum` models `int(float(t))` applied to
the stripped, lowercased text `t`: the truncated integer when the text
parses as a Python float, `none` when that parse raises. -/
inductive MVal where
  | null : MVal
  | v (s : String) (asNum : Option Int) : MVal
  deriving DecidableEq

/-- Model of `_to_machine_str` (`etl.py` lines 52-64): missing and blank
values map to `none`; text already starting with `machine_` passes
through; numeric text becomes `machine_{int(float(s))}`; any other text
is used verbatim (stripped and lowercased). -/
def toMachineStr : MVal → Option String
  | .null => none
  | .v s asNum =>
    let t := lowerStr (stripStr s)
    if t = "" then none
    else if beginsWith "machine_" t then some t
    else
      match asNum with
      | some n => some ("machine_" ++ toString n)
      | none => some t

/-- Numeric value of a digit run (most significant digit first). -/
def digitsVal (cs : List Char) : Nat :=
  cs.foldl (fun a c => a * 10 + (c.toNat - 48)) 0

/-- First maximal run of digits in a string, as matched by
`re.findall(r"\d+", s)[0]`; `none` when the string has no digit. -/
def firstDigitRun (s : String) : Option Nat :=
  let run := (s.data.dropWhile (fun c => !c.isDigit)).takeWhile Char.isDigit
  if run = [] then none else some (digitsVal run)

/-- Model of `_derive_line_id` (`etl.py` lines 67-79): extract the first
digit run of the machine id and map it to `Line_{(n-1)//10 + 1}` with
Python floor division. -/
def deriveLine : Option String → Option String
  | none => none
  | some m =>
    match firstDigitRun m with
    | none => none
    | some n => some ("Line_" ++ toString (((n : Int) - 1).fdiv 10 + 1))

/-- Injective textual rendering of a model timestamp, standing for
`pd.Timestamp.isoformat`. -/
def tsText (t : Int) : String := toString t

/-- Rendering of an optional identity inside a Python f-string: `None`
renders as the four characters `None`. -/
def optText : Option String → String
  | none => "None"
  | some s => s

/-- Model of the key string built by `_make_record_id` (`etl.py` lines
82-87): `f"{timestamp.isoformat()}|{line_id}|{machine_id}"`.  The
program md5-hashes this key to obtain `record_id`; since the digest is a
deterministic pure function of the key, record ids of two rows agree
whenever their keys agree, and every claim in scope depends on the id
only through such equalities, so the model uses the key itself as the
record id. -/
def makeRecordId (ts : Int) (line machine : Option String) : String :=
  tsText ts ++ "|" ++ optText line ++ "|" ++ optText machine

/-! ## Sensor cleaner (`clean_sensor_data`, `etl.py` lines 183-250) -/

/-- A raw cell of a sensor-value column.  `num q` is a numeric cell;
`txt s asNum` is a text cell whose `pd.to_numeric(errors="coerce")`
parse is `asNum`; `null` is a missing value. -/
inductive Cell where
  | num (q : Rat) : Cell
  | txt (s : String) (asNum : Option Rat) : Cell
  | null : Cell
  deriving DecidableEq

/-- The textual error markers replaced by NaN (`etl.py` line 208). -/
def errStrings : List String := ["-999", "-1", "NULL", "null", "NaN", "nan", ""]

/-- Model of `df[c].replace(error_values, np.nan)`: numeric cells equal
to -999 or -1 and text cells equal to one of the error strings become
missing. -/
def replaceErrors : Cell → Cell
  | .num q => if q = -999 ∨ q = -1 then .null else .num q
  | .txt s n => if s ∈ errStrings then .null else .txt s n
  | .null => .null

/-- Model of `pd.to_numeric(errors="coerce")` on one cell. -/
def toNumericCell : Cell → Option Rat
  | .num q => some q
  | .txt _ n => n
  | .null => none

/-- The values of the four sensor columns of one row
(temperature, pressure, vibration, power). -/
structure Vals where
  t : Option Rat
  p : Option Rat
  v : Option Rat
  w : Option Rat
  deriving DecidableEq

/-- All four sensor values missing. -/
def Vals.none4 : Vals := ⟨none, none, none, none⟩

/-- A raw input row of `clean_sensor_data`.  Fields for absent columns
are ignored (the frame flags decide which columns exist). -/
structure RawSensorRow where
  ts : Option Int
  machine : Option String
  temperature : Cell
  pressure : Cell
  vibration : Cell
  power : Cell
  energy : Cell
  deriving DecidableEq

/-- An input dataframe of `clean_sensor_data`: which columns exist,
plus the rows.  `energy` stands for the `energy_consumption` column. -/
structure SensorFrame where
  hasTS : Bool
  hasMachine : Bool
  hasTemp : Bool
  hasPressure : Bool
  hasVibration : Bool
  hasPower : Bool
  hasEnergy : Bool
  rows : List RawSensorRow
  deriving DecidableEq

/-- After the alias step (`etl.py` lines 202-203) a `power` column
exists when the input had `power` or `energy_consumption`. -/
def effHasPower (f : SensorFrame) : Bool := f.hasPower || f.hasEnergy

/-- The effective `power` cell of a row after the alias step. -/
def powerCell (f : SensorFrame) (r : RawSensorRow) : Cell :=
  if f.hasPower then r.power else r.energy

/-- Model of the range-validation step (`etl.py` lines 213-225):
a value outside `[lo, hi]` becomes missing; a missing value stays
missing (in pandas `NaN < lo` and `NaN > hi` are both false). -/
def rangeNull (lo hi : Rat) : Option Rat → Option Rat
  | none => none
  | some x => if x < lo ∨ x > hi then none else some x

/-- Sensor values of one row after error replacement, numeric coercion
and range validation, i.e. just before the forward fill.  Absent
columns carry `none` and are masked out by the frame flags. -/
def preVals (f : SensorFrame) (r : RawSensorRow) : Vals :=
  { t := if f.hasTemp then rangeNull 0 150 (toNumericCell (replaceErrors r.temperature)) else none
    p := if f.hasPressure then rangeNull 0 10 (toNumericCell (replaceErrors r.pressure)) else none
    v := if f.hasVibration then rangeNull 0 100 (toNumericCell (replaceErrors r.vibration)) else none
    w := if effHasPower f then toNumericCell (replaceErrors (powerCell f r)) else none }

/-- Does any EXISTING sensor column of this row hold a missing value?
Models `.isna().any(axis=1)` over `sensor_cols`. -/
def anyMissing (f : SensorFrame) (vl : Vals) : Bool :=
  (f.hasTemp && vl.t.isNone) || (f.hasPressure && vl.p.isNone) ||
  (f.hasVibration && vl.v.isNone) || (effHasPower f && vl.w.isNone)

/-- A row between the pre-fill steps and the fill: original position
`idx` (the pandas index label), timestamp, machine id, pre-fill values. -/
structure PRow where
  idx : Nat
  ts : Option Int
  machine : Option String
  pre : Vals
  deriving DecidableEq

/-- A row after the forward fill: pre-fill values kept for
specification purposes, `fin` the filled values. -/
structure FRow where
  idx : Nat
  ts : Option Int
  machine : Option String
  pre : Vals
  fin : Vals
  deriving DecidableEq

/-- Comparison on optional timestamps: missing values sort last
(`na_position="last"`). -/
def oZLE : Option Int → Option Int → Bool
  | none, none => true
  | none, some _ => false
  | some _, none => true
  | some a, some b => decide (a ≤ b)

/-- Strict comparison on optional machine ids, missing last. -/
def oSLT : Option String → Option String → Bool
  | none, _ => false
  | some _, none => true
  | some a, some b => charListLE a.data b.data && decide (a ≠ b)

/-- The sort relation of `df.sort_values(sort_cols)` (`etl.py` lines
230-234): by `(machine_id, timestamp)` when a `machine_id` column
exists, else by `timestamp` alone. -/
def rowLE (f : SensorFrame) (a b : PRow) : Bool :=
  if f.hasMachine then
    if a.machine = b.machine then oZLE a.ts b.ts else oSLT a.machine b.machine
  else oZLE a.ts b.ts

/-- Insert into a sorted list, after any element not strictly greater
(a stable insertion). -/
def insertSorted (le : α → α → Bool) (x : α) : List α → List α
  | [] => [x]
  | y :: ys => if le y x && !(le x y) then y :: insertSorted le x ys else x :: y :: ys

/-- Stable insertion sort; stands for the sorted permutation that
`sort_values` produces. -/
def sortByLE (le : α → α → Bool) : List α → List α
  | [] => []
  | x :: xs => insertSorted le x (sortByLE le xs)

/-- One forward-fill step on one cell: keep a present value, else use
the carried last known value. -/
def fillCarry (c x : Option Rat) : Option Rat :=
  match x with
  | some v => some v
  | none => c

/-- One forward-fill step on a whole row of sensor values. -/
def fillVals (c pv : Vals) : Vals :=
  ⟨fillCarry c.t pv.t, fillCarry c.p pv.p, fillCarry c.v pv.v, fillCarry c.w pv.w⟩

/-- Model of `df.groupby("machine_id")[sensor_cols].ffill()` on the
sorted rows.  The carry maps each machine id to its last known values.
Rows whose machine id is missing belong to no group under the groupby
default `dropna=True`; the transform result for them is NaN in every
column, so their values come out all-missing. -/
def ffillGrouped (carry : String → Vals) : List PRow → List FRow
  | [] => []
  | r :: rs =>
    match r.machine with
    | none => ⟨r.idx, r.ts, none, r.pre, Vals.none4⟩ :: ffillGrouped carry rs
    | some m =>
      let fv := fillVals (carry m) r.pre
      ⟨r.idx, r.ts, some m, r.pre, fv⟩ ::
        ffillGrouped (fun k => if k = m then fv else carry k) rs

/-- Model of `df[sensor_cols].ffill()` (no `machine_id` column). -/
def ffillGlobal (carry : Vals) : List PRow → List FRow
  | [] => []
  | r :: rs =>
    let fv := fillVals carry r.pre
    ⟨r.idx, r.ts, r.machine, r.pre, fv⟩ :: ffillGlobal fv rs

/-- Rows with original positions and pre-fill values (`etl.py` up to
line 227). -/
def preStage (f : SensorFrame) : List PRow :=
  f.rows.enum.map (fun ir => ⟨ir.1, ir.2.ts, ir.2.machine, preVals f ir.2⟩)

/-- The sorted rows (`etl.py` line 234). -/
def sortStage (f : SensorFrame) : List PRow := sortByLE (rowLE f) (preStage f)

/-- The sorted rows after the forward fill (`etl.py` lines 236-239). -/
def fillStage (f : SensorFrame) : List FRow :=
  if f.hasMachine then ffillGrouped (fun _ => Vals.none4) (sortStage f)
  else ffillGlobal Vals.none4 (sortStage f)

/-- Is any existing sensor column of this row still missing after the
fill (`still_missing`, `etl.py` line 241)? -/
def stillMissingRow (f : SensorFrame) (r : FRow) : Bool := anyMissing f r.fin

/-- The `was_estimated` flag carried by original index label `i`
(`etl.py` line 242).  `missing_before.any(axis=1) & ~still_missing`
joins two Series whose indexes hold the same labels in different
orders; pandas aligns them by label, and the resulting Series comes out
in ascending label order, so position `i` of its value array belongs to
the row whose original position was `i`. -/
def wasEstimatedAt (f : SensorFrame) (filled : List FRow) (i : Nat) : Bool :=
  match filled.find? (fun r => r.idx = i) with
  | some r => anyMissing f r.pre && !(stillMissingRow f r)
  | none => false

/-- An output row of `clean_sensor_data`: the input columns (sensor
values now filled) plus `data_quality`.  `pre` keeps the pre-fill
values for specification purposes; the program itself drops them. -/
structure CleanRow where
  idx : Nat
  ts : Option Int
  machine : Option String
  pre : Vals
  fin : Vals
  dq : String
  deriving DecidableEq

/-- Attach `data_quality` (`etl.py` lines 244-248).  The outer
`np.where(still_missing, "invalid", np.where(was_estimated, ...))`
consumes both Series POSITIONALLY: `still_missing` is in sorted row
order, but `was_estimated` is in ascending original-label order, so the
row at sorted position `i` receives the invalid flag of itself but the
estimated flag of the row whose original position was `i`. -/
def attachQuality (f : SensorFrame) (filled : List FRow) : Nat → List FRow → List CleanRow
  | _, [] => []
  | i, r :: rs =>
    ⟨r.idx, r.ts, r.machine, r.pre, r.fin,
      if stillMissingRow f r then "invalid"
      else if wasEstimatedAt f filled i then "estimated" else "good"⟩ ::
      attachQuality f filled (i + 1) rs

/-- The output rows of `clean_sensor_data`, in sorted order. -/
def cleanRows (f : SensorFrame) : List CleanRow :=
  attachQuality f (fillStage f) 0 (fillStage f)

/-- The output dataframe of `clean_sensor_data`: the input columns
(with `power` possibly added by the alias step), `data_quality` added,
rows sorted. -/
structure CleanFrame where
  hasTS : Bool
  hasMachine : Bool
  hasTemp : Bool
  hasPressure : Bool
  hasVibration : Bool
  hasPower : Bool
  hasEnergy : Bool
  rows : List CleanRow
  deriving DecidableEq

/-- Model of `clean_sensor_data` (`etl.py` lines 183-250).  The
function always executes `df.sort_values(sort_cols)` with `timestamp`
among the sort keys, so when the input has no `timestamp` column it
raises a `KeyError`; in particular it raises on the fully empty
dataframe.  It never drops rows. -/
def cleanSensorData (f : SensorFrame) : Except String CleanFrame :=
  if f.hasTS then
    .ok ⟨f.hasTS, f.hasMachine, f.hasTemp, f.hasPressure, f.hasVibration,
         effHasPower f, f.hasEnergy, cleanRows f⟩
  else .error "KeyError: timestamp"

/-! ## Sensor standardizer (`standardize_sensor_data`, `etl.py` lines 253-302) -/

/-- An input row of `standardize_sensor_data`: parsed timestamp, raw
machine cell, sensor values after numeric coercion, and the
`data_quality` value (used when the column exists). -/
structure StdInRow where
  ts : Option Int
  machine : MVal
  temperature : Option Rat
  pressure : Option Rat
  vibration : Option Rat
  power : Option Rat
  dq : String
  deriving DecidableEq

/-- An input dataframe of `standardize_sensor_data`. -/
structure StdFrame where
  hasTS : Bool
  hasMachine : Bool
  hasDQ : Bool
  rows : List StdInRow
  deriving DecidableEq

/-- An output row of `standardize_sensor_data`: exactly the canonical
schema columns. -/
structure StdRow where
  recordId : String
  ts : Int
  line : Option String
  machine : Option String
  temperature : Option Rat
  pressure : Option Rat
  vibration : Option Rat
  power : Option Rat
  dq : String
  deriving DecidableEq

/-- Model of `standardize_sensor_data`: requires `timestamp` and
`machine_id` columns (ValueError otherwise), drops rows whose timestamp
is unparseable, canonicalizes `machine_id`, derives `line_id`, defaults
`data_quality` to `good` when the column is absent, and computes the
record id from timestamp, line and machine (a missing identity renders
as `None` inside the key f-string).  Rows with a missing or blank
machine id are kept. -/
def standardizeSensorData (f : StdFrame) : Except String (List StdRow) :=
  if !f.hasTS then .error "Sensor data must contain timestamp." else
  if !f.hasMachine then .error "Sensor data must contain machine_id." else
  .ok (f.rows.filterMap (fun r =>
    r.ts.map (fun tv =>
      let m := toMachineStr r.machine
      let l := deriveLine m
      ⟨makeRecordId tv l m, tv, l, m, r.temperature, r.pressure, r.vibration,
        r.power, if f.hasDQ then r.dq else "good"⟩)))

/-! ## Quality transform (`transform_quality_data`, `etl.py` lines 305-378) -/

/-- A standardized sensor row as consumed by `transform_quality_data`
(timestamp, machine and line columns of `sensor_df`). -/
structure SStd where
  ts : Int
  machine : Option String
  line : Option String
  deriving DecidableEq

/-- A raw input row of `transform_quality_data`.  `result` is the raw
result cell rendered by `astype(str)` (a NaN cell renders as the text
`nan`); `label` is the `pd.to_numeric` parse of the first existing
fault/defect flag column; `defect`, `machine`, `line` are used when the
corresponding column exists. -/
structure QRowIn where
  ts : Option Int
  result : String
  label : Option Rat
  defect : Option String
  machine : MVal
  line : Option String
  deriving DecidableEq

/-- An input dataframe of `transform_quality_data`: which of the
optional columns exist (a timestamp-like column is assumed present;
its alias renaming does not change any value), plus the rows. -/
structure QFrame where
  hasResult : Bool
  hasLabel : Bool
  hasDefect : Bool
  hasMachine : Bool
  hasLine : Bool
  rows : List QRowIn
  deriving DecidableEq

/-- Canonicalization of a result cell (`etl.py` lines 338-339):
lowercase, strip, then map the four synonyms; ANY other text passes
through unchanged. -/
def canonResult (s : String) : String :=
  let t := stripStr (lowerStr s)
  if t = "passed" then "pass"
  else if t = "failed" then "fail"
  else if t = "ok" then "pass"
  else if t = "ng" then "fail"
  else t

/-- Python `int()` truncation toward zero of a rational, as in
`astype(int)`. -/
def truncInt (q : Rat) : Int := Int.tdiv q.num (q.den : Int)

/-- The derived `result` of one row (`etl.py` lines 337-346). -/
def deriveResult (f : QFrame) (r : QRowIn) : String :=
  if f.hasResult then canonResult r.result
  else if f.hasLabel then
    (if truncInt ((r.label.getD 0)) = 1 then "fail" else "pass")
  else "pass"

/-- The derived `defect_type` (`etl.py` lines 348-349): kept when the
column exists, else `fault` exactly on failing rows. -/
def deriveDefect (f : QFrame) (r : QRowIn) (res : String) : Option String :=
  if f.hasDefect then r.defect else (if res = "fail" then some "fault" else none)

/-- A quality row after timestamp dropna, result and defect derivation:
timestamp now total. -/
structure QMid where
  ts : Int
  result : String
  defect : Option String
  machine : MVal
  line : Option String
  deriving DecidableEq

/-- Smallest element of a nonempty list given as head and tail. -/
def listMin1 (x : Int) (xs : List Int) : Int := xs.foldl min x

/-- Largest element of a nonempty list given as head and tail. -/
def listMax1 (x : Int) (xs : List Int) : Int := xs.foldl max x

/-- Model of the time-alignment step (`etl.py` lines 351-358).  With a
nonempty `sensor_df`, test whether ANY quality timestamp lies between
the sensor minimum and maximum (`between` is inclusive); when none
does, shift every quality timestamp by `sensor max - quality max`.
With an empty quality row list `has_overlap` is false and the shift of
no rows is a no-op. -/
def alignQualityTimestamps (sensor : List SStd) (rows : List QMid) : List QMid :=
  match sensor, rows with
  | [], _ => rows
  | _, [] => rows
  | s0 :: ss, q0 :: qs =>
    let sMin := listMin1 s0.ts (ss.map (·.ts))
    let sMax := listMax1 s0.ts (ss.map (·.ts))
    let hasOverlap := (q0 :: qs).any (fun r => decide (sMin ≤ r.ts) && decide (r.ts ≤ sMax))
    if hasOverlap then q0 :: qs
    else
      let qMax := listMax1 q0.ts (qs.map (·.ts))
      (q0 :: qs).map (fun r => { r with ts := r.ts + (sMax - qMax) })

/-- A quality row after the identity steps: machine and line columns in
their final optional form. -/
structure QId where
  ts : Int
  result : String
  defect : Option String
  machine : Option String
  line : Option String
  deriving DecidableEq

/-- Is the raw machine cell missing (`pd.isna`)?  Blank text is NOT
missing. -/
def isNaM : MVal → Bool
  | .null => true
  | .v _ _ => false

/-- An output row of `transform_quality_data`. -/
structure QOut where
  ts : Int
  line : String
  machine : String
  result : String
  defect : Option String
  deriving DecidableEq

/-- The quality rows after timestamp dropna and the result and defect
derivations (`etl.py` lines 333-349). -/
def qDerivedRows (f : QFrame) : List QMid :=
  f.rows.filterMap (fun r =>
    r.ts.map (fun tv =>
      let res := deriveResult f r
      ⟨tv, res, deriveDefect f r res, r.machine, r.line⟩))

/-- Identity backfill of one row from the sensor lookup (`etl.py`
lines 364-365): the lookup deduplicated on timestamp keeps the FIRST
sensor row per timestamp, i.e. behaves as `find?`. -/
def qBackfillRow (sensor : List SStd) (r : QMid) : QId :=
  match sensor.find? (fun s => s.ts = r.ts) with
  | some s => ⟨r.ts, r.result, r.defect, s.machine, s.line⟩
  | none => ⟨r.ts, r.result, r.defect, none, none⟩

/-- Re-derivation of the line column from the machine column
(`etl.py` lines 372-373). -/
def qRederiveLine (rs : List QId) : List QId :=
  rs.map (fun r => { r with line := deriveLine r.machine })

/-- The final projection of `transform_quality_data` (`etl.py` lines
375-376): keep the five schema columns and drop every row missing
machine or line (timestamps are always present here). -/
def qProject (rs : List QId) : List QOut :=
  rs.filterMap (fun u =>
    match u.machine, u.line with
    | some mv, some lv => some ⟨u.ts, lv, mv, u.result, u.defect⟩
    | _, _ => none)

/-- Model of `transform_quality_data` (`etl.py` lines 305-378):
timestamp dropna; result and defect derivation; time alignment;
identity backfill; final projection dropping rows without machine or
line.  When the input HAS a `machine_id` column whose values are all
missing and `sensor_df` is nonempty, the merge with the sensor lookup
carries `machine_id` on both sides, pandas suffixes the colliding
column to `machine_id_x`/`machine_id_y`, and the later access to
`df["machine_id"]` raises a `KeyError`. -/
def transformQualityData (f : QFrame) (sensor : List SStd) : Except String (List QOut) :=
  let rows2 := alignQualityTimestamps sensor (qDerivedRows f)
  let needBackfill := !f.hasMachine || rows2.all (fun r => isNaM r.machine)
  if needBackfill then
    match sensor with
    | [] =>
      -- both identity columns are set to all-missing; the line
      -- re-derivation maps a missing machine to a missing line, and
      -- the final dropna removes every row.
      let rows3 : List QId := rows2.map (fun r => ⟨r.ts, r.result, r.defect, none, none⟩)
      .ok (qProject (qRederiveLine rows3))
    | _ :: _ =>
      if f.hasMachine then .error "KeyError: machine_id" else
      let rows3 := rows2.map (qBackfillRow sensor)
      -- when the quality input had its own line_id column, the merge
      -- suffixes both line_id columns away, so the line column counts
      -- as absent and the line is re-derived from the looked-up
      -- machine; otherwise the looked-up line is kept unless all
      -- missing.
      let lineMissing := f.hasLine || rows3.all (fun r => r.line.isNone)
      .ok (qProject (if lineMissing then qRederiveLine rows3 else rows3))
  else
    let rows3 : List QId := rows2.map (fun r =>
      ⟨r.ts, r.result, r.defect, toMachineStr r.machine,
        if f.hasLine then r.line else none⟩)
    let lineMissing := !f.hasLine || rows3.all (fun r => r.line.isNone)
    .ok (qProject (if lineMissing then qRederiveLine rows3 else rows3))

/-! ## Hourly aggregator (`calculate_hourly_summary`, `etl.py` lines 404-438) -/

/-- A joined row as consumed by `calculate_hourly_summary`: timestamp,
identity keys, numeric sensor values and the (possibly absent) quality
result. -/
structure JRow where
  ts : Option Int
  line : Option String
  machine : Option String
  temperature : Option Rat
  pressure : Option Rat
  vibration : Option Rat
  result : Option String
  deriving DecidableEq

/-- Truncation of a timestamp to the start of its hour
(`df["timestamp"].dt.floor("h")`); `Int.emod` is nonnegative for a
positive modulus, so this floors toward minus infinity exactly like
pandas. -/
def hourFloor (t : Int) : Int := t - t % 3600

/-- The group key of a joined row: floored hour, line, machine.  A
missing timestamp keeps a missing hour; `groupby(..., dropna=False)`
groups missing keys together. -/
def jKey (r : JRow) : Option Int × Option String × Option String :=
  (r.ts.map hourFloor, r.line, r.machine)

/-- The distinct group keys in order of first appearance. -/
def keysOf : List (Option Int × Option String × Option String) →
    List (Option Int × Option String × Option String)
  | [] => []
  | k :: ks => k :: (keysOf ks).filter (fun x => x ≠ k)

/-- Mean of the present values of a column within a group; missing when
every value is missing (pandas `mean` skips NaN). -/
def meanOpt (xs : List Rat) : Option Rat :=
  match xs with
  | [] => none
  | _ => some (xs.foldl (· + ·) 0 / (xs.length : Rat))

/-- Minimum of the present values, missing when none. -/
def minOpt (xs : List Rat) : Option Rat :=
  match xs with
  | [] => none
  | x :: r => some (r.foldl min x)

/-- Maximum of the present values, missing when none. -/
def maxOpt (xs : List Rat) : Option Rat :=
  match xs with
  | [] => none
  | x :: r => some (r.foldl max x)

/-- An output row of `calculate_hourly_summary`. -/
structure HSum where
  hour : Option Int
  line : Option String
  machine : Option String
  avgTemperature : Option Rat
  minTemperature : Option Rat
  maxTemperature : Option Rat
  avgPressure : Option Rat
  avgVibration : Option Rat
  totalChecks : Nat
  defectCount : Nat
  defectRate : Rat
  deriving DecidableEq

/-- The summary row of one group (`etl.py` lines 419-437):
`total_checks` counts non-missing results, `defect_count` counts
results equal to `fail`, and `defect_rate` is
`np.where(total_checks > 0, defect_count / total_checks * 100, 0.0)`. -/
def mkSummary (rows : List JRow) (k : Option Int × Option String × Option String) : HSum :=
  let g := rows.filter (fun r => jKey r = k)
  let temps := g.filterMap (·.temperature)
  let press := g.filterMap (·.pressure)
  let vibs := g.filterMap (·.vibration)
  let total := (g.filter (fun r => r.result.isSome)).length
  let defects := (g.filter (fun r => r.result = some "fail")).length
  ⟨k.1, k.2.1, k.2.2, meanOpt temps, minOpt temps, maxOpt temps,
    meanOpt press, meanOpt vibs, total, defects,
    if 0 < total then (defects : Rat) / (total : Rat) * 100 else 0⟩

/-- Model of `calculate_hourly_summary`: one summary row per distinct
(hour, line, machine) key. -/
def calculateHourlySummary (rows : List JRow) : List HSum :=
  (keysOf (rows.map jKey)).map (mkSummary rows)

/-! ## SQLite load layer (`db.py`)

The store is modeled as lists of table rows in rowid order.  The
uniqueness semantics follow SQLite: in a UNIQUE index (and in a
non-INTEGER PRIMARY KEY, which is just a unique index) NULL values are
distinct, so a candidate row conflicts with an existing row only when
the compared key columns are all non-NULL and equal. -/

/-- A stored `sensor_readings` row (timestamps already rendered to text
by `isoformat`). -/
structure SensorDbRow where
  recordId : Option String
  ts : Option String
  line : Option String
  machine : Option String
  temperature : Option Rat
  pressure : Option Rat
  vibration : Option Rat
  power : Option Rat
  dq : Option String
  deriving DecidableEq

/-- A stored `quality_checks` row (without the autoincrement id). -/
structure QualityDbRow where
  ts : Option String
  line : Option String
  machine : Option String
  result : Option String
  defect : Option String
  deriving DecidableEq

/-- A stored `hourly_summary` row (without the autoincrement id). -/
structure HourlyDbRow where
  hour : Option String
  line : Option String
  machine : Option String
  avgTemperature : Option Rat
  minTemperature : Option Rat
  maxTemperature : Option Rat
  avgPressure : Option Rat
  avgVibration : Option Rat
  totalChecks : Int
  defectCount : Int
  defectRate : Rat
  deriving DecidableEq

/-- Structural worker for `chunksOf`; the fuel only bounds the
recursion depth and any fuel at least the list length is enough. -/
def chunksFuel (n : Nat) : Nat → List α → List (List α)
  | _, [] => []
  | 0, _ :: _ => []
  | fuel + 1, y :: ys => (y :: ys).take n :: chunksFuel n fuel ((y :: ys).drop n)

/-- Model of `_chunked` (`db.py` lines 77-79): split into consecutive
chunks of `n` rows; `range(0, len(seq), chunk_size)` requires a
positive step, so a zero chunk size raises and is mapped to no chunks
here (the claims only concern positive chunk sizes). -/
def chunksOf (n : Nat) (xs : List α) : List (List α) :=
  if n = 0 then [] else chunksFuel n xs.length xs

/-- `INSERT OR IGNORE` into `sensor_readings`: the PRIMARY KEY on
`record_id` rejects a row exactly when its record id is non-NULL and
already present. -/
def insertSensorRow (tbl : List SensorDbRow) (r : SensorDbRow) : List SensorDbRow :=
  match r.recordId with
  | none => tbl ++ [r]
  | some k => if tbl.any (fun x => x.recordId = some k) then tbl else tbl ++ [r]

/-- `INSERT OR IGNORE` into `quality_checks`: the unique index
`ux_quality` covers (timestamp, line_id, machine_id, result,
defect_type); a candidate with any NULL among these columns never
conflicts. -/
def insertQualityRow (tbl : List QualityDbRow) (r : QualityDbRow) : List QualityDbRow :=
  if r.ts.isSome && r.line.isSome && r.machine.isSome && r.result.isSome
      && r.defect.isSome && tbl.any (fun x => x = r) then tbl
  else tbl ++ [r]

/-- `INSERT OR REPLACE` into `hourly_summary`: when the (hour, line,
machine) key is fully non-NULL, delete every row with the same key and
append the new row; with any NULL in the key nothing conflicts and the
row is simply appended. -/
def insertHourlyRow (tbl : List HourlyDbRow) (r : HourlyDbRow) : List HourlyDbRow :=
  if r.hour.isSome && r.line.isSome && r.machine.isSome then
    (tbl.filter (fun x => !(x.hour = r.hour && x.line = r.line && x.machine = r.machine : Bool)))
      ++ [r]
  else tbl ++ [r]

/-- An input row of `load_sensor_readings` (a standardized dataframe
row; the load converts the timestamp to text). -/
structure SensorLoadRow where
  recordId : Option String
  ts : Option Int
  line : Option String
  machine : Option String
  temperature : Option Rat
  pressure : Option Rat
  vibration : Option Rat
  power : Option Rat
  dq : Option String
  deriving DecidableEq

/-- An input row of `load_quality_checks`. -/
structure QualityLoadRow where
  ts : Option Int
  line : Option String
  machine : Option String
  result : Option String
  defect : Option String
  deriving DecidableEq

/-- An input row of `load_hourly_summary`. -/
structure HourlyLoadRow where
  hour : Option Int
  line : Option String
  machine : Option String
  avgTemperature : Option Rat
  minTemperature : Option Rat
  maxTemperature : Option Rat
  avgPressure : Option Rat
  avgVibration : Option Rat
  totalChecks : Int
  defectCount : Int
  defectRate : Rat
  deriving DecidableEq

/-- Row preparation of `load_sensor_readings` (`db.py` lines 86-92). -/
def prepSensorRow (r : SensorLoadRow) : SensorDbRow :=
  ⟨r.recordId, r.ts.map tsText, r.line, r.machine, r.temperature, r.pressure,
    r.vibration, r.power, r.dq⟩

/-- Row preparation of `load_quality_checks` (`db.py` lines 109-114). -/
def prepQualityRow (r : QualityLoadRow) : QualityDbRow :=
  ⟨r.ts.map tsText, r.line, r.machine, r.result, r.defect⟩

/-- Row preparation of `load_hourly_summary` (`db.py` lines 146-151). -/
def prepHourlyRow (r : HourlyLoadRow) : HourlyDbRow :=
  ⟨r.hour.map tsText, r.line, r.machine, r.avgTemperature, r.minTemperature,
    r.maxTemperature, r.avgPressure, r.avgVibration, r.totalChecks,
    r.defectCount, r.defectRate⟩

/-- Model of `load_sensor_readings` (`db.py` lines 82-102): prepare the
rows, insert them chunk by chunk, return the new table and the
count-after minus count-before. -/
def loadSensorReadings (tbl : List SensorDbRow) (df : List SensorLoadRow)
    (chunkSize : Nat) : List SensorDbRow × Int :=
  let rows := df.map prepSensorRow
  let tbl2 := (chunksOf chunkSize rows).foldl (fun t b => b.foldl insertSensorRow t) tbl
  (tbl2, (tbl2.length : Int) - (tbl.length : Int))

/-- Model of `load_quality_checks` (`db.py` lines 105-124). -/
def loadQualityChecks (tbl : List QualityDbRow) (df : List QualityLoadRow)
    (chunkSize : Nat) : List QualityDbRow × Int :=
  let rows := df.map prepQualityRow
  let tbl2 := (chunksOf chunkSize rows).foldl (fun t b => b.foldl insertQualityRow t) tbl
  (tbl2, (tbl2.length : Int) - (tbl.length : Int))

/-- Model of `load_hourly_summary` (`db.py` lines 127-162). -/
def loadHourlySummary (tbl : List HourlyDbRow) (df : List HourlyLoadRow)
    (chunkSize : Nat) : List HourlyDbRow × Int :=
  let rows := df.map prepHourlyRow
  let tbl2 := (chunksOf chunkSize rows).foldl (fun t b => b.foldl insertHourlyRow t) tbl
  (tbl2, (tbl2.length : Int) - (tbl.length : Int))

/-- One-row-at-a-time reference load, from the specification words:
"must behave identically to one-row-at-a-time from the caller's
perspective" (spec section 4.9).  Same preparation, no chunking. -/
def loadSensorReadingsRowByRow (tbl : List SensorDbRow)
    (df : List SensorLoadRow) : List SensorDbRow × Int :=
  let tbl2 := (df.map prepSensorRow).foldl insertSensorRow tbl
  (tbl2, (tbl2.length : Int) - (tbl.length : Int))

/-- One-row-at-a-time reference load for `quality_checks` (from the
specification words, as above). -/
def loadQualityChecksRowByRow (tbl : List QualityDbRow)
    (df : List QualityLoadRow) : List QualityDbRow × Int :=
  let tbl2 := (df.map prepQualityRow).foldl insertQualityRow tbl
  (tbl2, (tbl2.length : Int) - (tbl.length : Int))

/-- One-row-at-a-time reference load for `hourly_summary` (from the
specification words, as above). -/
def loadHourlySummaryRowByRow (tbl : List HourlyDbRow)
    (df : List HourlyLoadRow) : List HourlyDbRow × Int :=
  let tbl2 := (df.map prepHourlyRow).foldl insertHourlyRow tbl
  (tbl2, (tbl2.length : Int) - (tbl.length : Int))

/-! ## Supporting lemmas -/

theorem chunksFuel_flatten (n : Nat) (hn : 0 < n) :
    ∀ (fuel : Nat) (xs : List α), xs.length ≤ fuel → (chunksFuel n fuel xs).flatten = xs := by
  intro fuel
  induction fuel with
  | zero =>
    intro xs hle
    match xs with
    | [] => rfl
    | y :: ys => simp at hle
  | succ k ih =>
    intro xs hle
    match xs with
    | [] => rfl
    | y :: ys =>
      have hlen : ((y :: ys).drop n).length ≤ k := by
        rw [List.length_drop, List.length_cons]
        rw [List.length_cons] at hle
        omega
      show ((y :: ys).take n :: chunksFuel n k ((y :: ys).drop n)).flatten = y :: ys
      rw [List.flatten_cons, ih _ hlen, List.take_append_drop]

theorem chunksOf_flatten (n : Nat) (hn : 0 < n) (xs : List α) :
    (chunksOf n xs).flatten = xs := by
  unfold chunksOf
  rw [if_neg (by omega)]
  exact chunksFuel_flatten n hn xs.length xs le_rfl

theorem foldl_batches (g : σ → α → σ) :
    ∀ (ls : List (List α)) (s : σ),
      ls.foldl (fun t b => b.foldl g t) s = ls.flatten.foldl g s := by
  intro ls
  induction ls with
  | nil => intro s; rfl
  | cons b bs ih =>
    intro s
    rw [List.foldl_cons, List.flatten_cons, List.foldl_append]
    exact ih (b.foldl g s)

theorem foldl_chunksOf (g : σ → α → σ) (n : Nat) (hn : 0 < n) (s : σ) (xs : List α) :
    (chunksOf n xs).foldl (fun t b => b.foldl g t) s = xs.foldl g s := by
  rw [foldl_batches, chunksOf_flatten n hn]

/-! ## Claim C9: batching equivalence of the load layer -/

/-- C9: for every destination table, every dataset and every positive
chunk size, each chunked load function leaves the store in exactly the
same state and returns the same count as inserting the same rows one at
a time in the same order (the one-at-a-time reference functions are
written from the specification words). -/
theorem load_chunked_matches_row_by_row (chunkSize : Nat) (hpos : 0 < chunkSize)
    (sTbl : List SensorDbRow) (sDf : List SensorLoadRow)
    (qTbl : List QualityDbRow) (qDf : List QualityLoadRow)
    (hTbl : List HourlyDbRow) (hDf : List HourlyLoadRow) :
    loadSensorReadings sTbl sDf chunkSize = loadSensorReadingsRowByRow sTbl sDf
    ∧ loadQualityChecks qTbl qDf chunkSize = loadQualityChecksRowByRow qTbl qDf
    ∧ loadHourlySummary hTbl hDf chunkSize = loadHourlySummaryRowByRow hTbl hDf := by
  refine ⟨?_, ?_, ?_⟩
  · show ((chunksOf chunkSize (sDf.map prepSensorRow)).foldl
        (fun t b => b.foldl insertSensorRow t) sTbl, _) = _
    rw [foldl_chunksOf _ _ hpos]
    rfl
  · show ((chunksOf chunkSize (qDf.map prepQualityRow)).foldl
        (fun t b => b.foldl insertQualityRow t) qTbl, _) = _
    rw [foldl_chunksOf _ _ hpos]
    rfl
  · show ((chunksOf chunkSize (hDf.map prepHourlyRow)).foldl
        (fun t b => b.foldl insertHourlyRow t) hTbl, _) = _
    rw [foldl_chunksOf _ _ hpos]
    rfl

/-- Quality rows used by the C9 witness. -/
def c9QualityRows : List QualityLoadRow :=
  [⟨some 0, some "Line_1", some "machine_1", some "fail", some "fault"⟩,
   ⟨some 0, some "Line_1", some "machine_1", some "fail", some "fault"⟩,
   ⟨some 60, some "Line_1", some "machine_1", some "pass", none⟩]

/-- Sensor rows used by the C9 witness. -/
def c9SensorRows : List SensorLoadRow :=
  [⟨some "0|Line_1|machine_1", some 0, some "Line_1", some "machine_1",
     some 50, none, none, none, some "good"⟩,
   ⟨some "60|Line_1|machine_1", some 60, some "Line_1", some "machine_1",
     some 51, none, none, none, some "good"⟩,
   ⟨some "0|Line_1|machine_1", some 0, some "Line_1", some "machine_1",
     some 52, none, none, none, some "good"⟩]

/-- Hourly rows used by the C9 witness. -/
def c9HourlyRows : List HourlyLoadRow :=
  [⟨some 0, some "Line_1", some "machine_1", some 50, some 50, some 52,
     none, none, 3, 2, 200/3⟩,
   ⟨some 0, some "Line_1", some "machine_1", some 51, some 50, some 52,
     none, none, 3, 2, 200/3⟩]

/-- Witness for C9 at chunk size 2 on three-row datasets whose chunks
split unevenly. -/
theorem load_chunked_matches_row_by_row_witness :
    0 < 2
    ∧ loadSensorReadings [] c9SensorRows 2 = loadSensorReadingsRowByRow [] c9SensorRows
    ∧ loadQualityChecks [] c9QualityRows 2 = loadQualityChecksRowByRow [] c9QualityRows
    ∧ loadHourlySummary [] c9HourlyRows 2 = loadHourlySummaryRowByRow [] c9HourlyRows :=
  ⟨by decide,
   load_chunked_matches_row_by_row 2 (by decide) [] c9SensorRows [] c9QualityRows [] c9HourlyRows⟩

/-! ## Claim C1: load idempotence -/

/-- A standardized sensor row, as loaded twice by the C1 evaluation. -/
def c1SensorRow : SensorLoadRow :=
  ⟨some "0|Line_1|machine_1", some 0, some "Line_1", some "machine_1",
    some 50, some 5, some 10, none, some "good"⟩

/-- A normalized quality row with `result = pass`, hence
`defect_type = NULL`, as produced by `transform_quality_data`. -/
def c1PassRow : QualityLoadRow :=
  ⟨some 0, some "Line_1", some "machine_1", some "pass", none⟩

/-- C1: evaluation at the failing input.  Reloading the same
standardized sensor dataset adds 0 rows (the claim holds for
`sensor_readings`), but reloading a normalized quality dataset whose
row passed (`defect_type` NULL) adds the row AGAIN: SQLite unique
indexes treat NULLs as distinct, so the second load returns 1 and the
table grows to two rows, contradicting the idempotence claim and the
`Prevent duplicates on reruns` comment in `db.py`. -/
theorem load_rerun_duplicates_null_defect_rows :
    (loadSensorReadings (loadSensorReadings [] [c1SensorRow] 5000).1 [c1SensorRow] 5000).2 = 0
    ∧ (loadQualityChecks [] [c1PassRow] 5000).2 = 1
    ∧ (loadQualityChecks (loadQualityChecks [] [c1PassRow] 5000).1 [c1PassRow] 5000).2 = 1
    ∧ (loadQualityChecks (loadQualityChecks [] [c1PassRow] 5000).1 [c1PassRow] 5000).1.length = 2 := by
  refine ⟨?_, ?_, ?_, ?_⟩ <;> decide

/-! ## Transport lemmas for the cleaner pipeline -/

/-- Forgetting the quality label of a cleaned row. -/
def toFRow (r : CleanRow) : FRow := ⟨r.idx, r.ts, r.machine, r.pre, r.fin⟩

theorem attachQuality_toFRow (f : SensorFrame) (fl : List FRow) :
    ∀ (i : Nat) (l : List FRow), (attachQuality f fl i l).map toFRow = l := by
  intro i l
  induction l generalizing i with
  | nil => rfl
  | cons r rs ih => simp [attachQuality, toFRow, ih]

theorem cleanRows_toFRow (f : SensorFrame) : (cleanRows f).map toFRow = fillStage f :=
  attachQuality_toFRow f (fillStage f) 0 (fillStage f)

/-- Forgetting the filled values of a filled row. -/
def toPRow (r : FRow) : PRow := ⟨r.idx, r.ts, r.machine, r.pre⟩

theorem ffillGrouped_toPRow :
    ∀ (carry : String → Vals) (l : List PRow), (ffillGrouped carry l).map toPRow = l := by
  intro carry l
  induction l generalizing carry with
  | nil => rfl
  | cons r rs ih =>
    rcases hrm : r.machine with _ | mx <;>
      simp [ffillGrouped, hrm, toPRow, ih] <;> rw [← hrm]

theorem ffillGlobal_toPRow :
    ∀ (carry : Vals) (l : List PRow), (ffillGlobal carry l).map toPRow = l := by
  intro carry l
  induction l generalizing carry with
  | nil => rfl
  | cons r rs ih => simp [ffillGlobal, toPRow, ih]

theorem fillStage_toPRow (f : SensorFrame) : (fillStage f).map toPRow = sortStage f := by
  cases hM : f.hasMachine <;>
    simp [fillStage, hM, ffillGrouped_toPRow, ffillGlobal_toPRow]

theorem insertSorted_perm (le : α → α → Bool) (x : α) :
    ∀ l : List α, (insertSorted le x l).Perm (x :: l) := by
  intro l
  induction l with
  | nil => exact List.Perm.refl _
  | cons y ys ih =>
    by_cases h : (le y x && !(le x y)) = true
    · rw [insertSorted, if_pos h]
      exact (ih.cons y).trans (List.Perm.swap x y ys)
    · rw [insertSorted, if_neg h]

theorem sortByLE_perm (le : α → α → Bool) : ∀ l : List α, (sortByLE le l).Perm l := by
  intro l
  induction l with
  | nil => exact List.Perm.refl _
  | cons x xs ih => exact (insertSorted_perm le x (sortByLE le xs)).trans (ih.cons x)

theorem preStage_map_ts (f : SensorFrame) :
    (preStage f).map PRow.ts = f.rows.map RawSensorRow.ts := by
  unfold preStage
  rw [List.map_map]
  have h2 : f.rows.enum.map (fun ir => ir.2.ts)
      = (f.rows.enum.map Prod.snd).map RawSensorRow.ts := by rw [List.map_map]; rfl
  calc f.rows.enum.map (PRow.ts ∘ fun ir => (⟨ir.1, ir.2.ts, ir.2.machine, preVals f ir.2⟩ : PRow))
      = f.rows.enum.map (fun ir => ir.2.ts) := rfl
    _ = (f.rows.enum.map Prod.snd).map RawSensorRow.ts := h2
    _ = f.rows.map RawSensorRow.ts := by rw [List.enum_map_snd]

theorem cleanRows_length (f : SensorFrame) : (cleanRows f).length = f.rows.length := by
  have h1 : (cleanRows f).length = (fillStage f).length := by
    rw [← cleanRows_toFRow f, List.length_map]
  have h2 : (fillStage f).length = (sortStage f).length := by
    rw [← fillStage_toPRow f, List.length_map]
  have h3 : (sortStage f).length = (preStage f).length :=
    (sortByLE_perm (rowLE f) (preStage f)).length_eq
  have h4 : (preStage f).length = f.rows.length := by
    unfold preStage
    rw [List.length_map, List.enum_length]
  omega

theorem cleanRows_countP_ts_none (f : SensorFrame) :
    (cleanRows f).countP (fun r => r.ts.isNone)
      = f.rows.countP (fun r => r.ts.isNone) := by
  have h1 : (cleanRows f).countP (fun r => r.ts.isNone)
      = (fillStage f).countP (fun r => r.ts.isNone) := by
    rw [← cleanRows_toFRow f, List.countP_map]; rfl
  have h2 : (fillStage f).countP (fun r => r.ts.isNone)
      = (sortStage f).countP (fun r => r.ts.isNone) := by
    rw [← fillStage_toPRow f, List.countP_map]; rfl
  have h3 : (sortStage f).countP (fun r => r.ts.isNone)
      = (preStage f).countP (fun r => r.ts.isNone) :=
    (sortByLE_perm (rowLE f) (preStage f)).countP_eq _
  have h4 : (preStage f).countP (fun r => r.ts.isNone)
      = f.rows.countP (fun r => r.ts.isNone) := by
    have := congrArg (List.countP Option.isNone) (preStage_map_ts f)
    rwa [List.countP_map, List.countP_map] at this
  omega

/-! ## Claim C4: cleaner timestamp handling -/

/-- Input frame of the C4 counterexample: one row whose timestamp is
unparseable (NaT after coercion) and whose temperature is valid. -/
def c4x : SensorFrame :=
  ⟨true, false, true, false, false, false, false,
   [⟨none, none, .num 20, .null, .null, .null, .null⟩]⟩

/-- C4 is false as stated: `clean_sensor_data` does NOT remove rows with
unparseable timestamps.  On a one-row frame whose timestamp failed to
parse, the output still contains that row, with a missing timestamp
(`pd.to_datetime(errors="coerce")` leaves NaT and no dropna follows). -/
theorem clean_keeps_unparseable_timestamp :
    (cleanRows c4x).map (fun r => (r.ts, r.fin.t, r.dq)) = [(none, some 20, "good")]
    ∧ cleanSensorData c4x
        = .ok ⟨true, false, true, false, false, false, false, cleanRows c4x⟩ :=
  ⟨by decide, rfl⟩

/-- C4 (amended): `clean_sensor_data` coerces unparseable timestamps to
missing but keeps the rows: when it succeeds, the output has exactly as
many rows as the input, and as many missing timestamps as the input has
unparseable ones.  (The rows are dropped later, by
`standardize_sensor_data`, not by the cleaner.) -/
theorem clean_preserves_rows (f : SensorFrame) (cf : CleanFrame)
    (hok : cleanSensorData f = .ok cf) :
    cf.rows.length = f.rows.length
    ∧ cf.rows.countP (fun r => r.ts.isNone) = f.rows.countP (fun r => r.ts.isNone) := by
  cases hts : f.hasTS
  · rw [cleanSensorData, hts] at hok
    simp at hok
  · rw [cleanSensorData, hts] at hok
    simp only [if_pos] at hok
    cases hok
    exact ⟨cleanRows_length f, cleanRows_countP_ts_none f⟩

/-- Input frame of the C4 witness: one parseable and one unparseable
timestamp. -/
def c4w : SensorFrame :=
  ⟨true, false, true, false, false, false, false,
   [⟨some 3, none, .num 21, .null, .null, .null, .null⟩,
    ⟨none, none, .num 22, .null, .null, .null, .null⟩]⟩

/-- Output frame of the C4 witness. -/
def c4wFrame : CleanFrame :=
  ⟨true, false, true, false, false, false, false, cleanRows c4w⟩

/-- Witness for the amended C4. -/
theorem clean_preserves_rows_witness :
    cleanSensorData c4w = Except.ok c4wFrame
    ∧ c4wFrame.rows.length = c4w.rows.length
    ∧ c4wFrame.rows.countP (fun r => r.ts.isNone)
        = c4w.rows.countP (fun r => r.ts.isNone) :=
  ⟨rfl, (clean_preserves_rows c4w c4wFrame rfl).1, (clean_preserves_rows c4w c4wFrame rfl).2⟩

/-! ## Claim C5: cleaner on empty input -/

/-- The fully empty dataframe (`pd.DataFrame()`): no columns, no rows. -/
def c5x : SensorFrame := ⟨false, false, false, false, false, false, false, []⟩

/-- C5 is false as stated: on the fully empty dataframe
`clean_sensor_data` raises, because `df.sort_values(["timestamp"])`
always runs and the empty frame has no `timestamp` column. -/
theorem clean_empty_frame_raises :
    cleanSensorData c5x = .error "KeyError: timestamp" := rfl

/-- C5 (amended): on an input with no rows, `clean_sensor_data` raises
a KeyError when there is no `timestamp` column (in particular on the
fully empty dataframe) and otherwise succeeds with no rows, returning
the input columns (plus the power alias and `data_quality`). -/
theorem clean_empty_frame (f : SensorFrame) (h : f.rows = []) :
    cleanSensorData f =
      if f.hasTS then
        .ok ⟨f.hasTS, f.hasMachine, f.hasTemp, f.hasPressure, f.hasVibration,
          effHasPower f, f.hasEnergy, []⟩
      else .error "KeyError: timestamp" := by
  have hr : cleanRows f = [] := by
    have hp : preStage f = [] := by rw [preStage, h]; rfl
    have hs : sortStage f = [] := by rw [sortStage, hp]; rfl
    have hf : fillStage f = [] := by
      cases hM : f.hasMachine <;> simp [fillStage, hM, hs, ffillGrouped, ffillGlobal]
    rw [cleanRows, hf]
    rfl
  cases hts : f.hasTS <;> simp [cleanSensorData, hts, hr]

/-- Input frame of the C5 witness: columns present, no rows. -/
def c5w : SensorFrame := ⟨true, true, true, true, true, true, true, []⟩

/-- Witness for the amended C5. -/
theorem clean_empty_frame_witness :
    c5w.rows = []
    ∧ cleanSensorData c5w =
        (if c5w.hasTS then
          Except.ok ⟨c5w.hasTS, c5w.hasMachine, c5w.hasTemp, c5w.hasPressure,
            c5w.hasVibration, effHasPower c5w, c5w.hasEnergy, []⟩
        else Except.error "KeyError: timestamp") :=
  ⟨rfl, clean_empty_frame c5w rfl⟩

/-! ## Claim C2: time alignment -/

/-- Largest quality timestamp of a list, with a default for the empty
list (only used to state the after-shift maximum). -/
def tsMaxD (d : Int) : List QMid → Int
  | [] => d
  | r :: rs => listMax1 r.ts (rs.map QMid.ts)

theorem listMax1_map_add (c : Int) :
    ∀ (x : Int) (xs : List Int), listMax1 (x + c) (xs.map (· + c)) = listMax1 x xs + c := by
  intro x xs
  induction xs generalizing x with
  | nil => rfl
  | cons a as ih =>
    show listMax1 (max (x + c) (a + c)) (as.map (· + c)) = listMax1 (max x a) as + c
    rw [max_add_add_right, ih]

/-- Sensor rows of the C2 counterexample: timestamps 5 and 6. -/
def c2sen : List SStd :=
  [⟨5, some "machine_1", some "Line_1"⟩, ⟨6, some "machine_1", some "Line_1"⟩]

/-- Quality rows of the C2 counterexample: timestamps 1 and 10, so the
quality range [1, 10] strictly contains the sensor range [5, 6]. -/
def c2q : List QMid :=
  [⟨1, "pass", none, .null, none⟩, ⟨10, "pass", none, .null, none⟩]

/-- C2 is false as stated: here the quality timestamp range [1, 10] and
the sensor timestamp range [5, 6] overlap as intervals, yet the code
shifts every quality timestamp by -4 (it tests whether some individual
quality timestamp falls inside the sensor range, not interval overlap),
so a shift happens although the ranges partially overlap. -/
theorem align_shifts_despite_partial_overlap :
    (listMin1 1 [10] ≤ listMax1 5 [6] ∧ listMin1 5 [6] ≤ listMax1 1 [10])
    ∧ (alignQualityTimestamps c2sen c2q).map QMid.ts = [-3, 6] := by
  refine ⟨⟨?_, ?_⟩, ?_⟩ <;> decide

/-- C2 (amended): with nonempty sensor and quality datasets, the shift
happens if and only if NO individual quality timestamp lies inside the
sensor [min, max] range (in particular whenever the two ranges have no
overlap at all); when it happens, every quality timestamp moves by the
constant (sensor max - quality max) and the new quality maximum equals
the sensor maximum; when some quality timestamp lies inside the sensor
range, no timestamp changes. -/
theorem align_shift_iff_no_point_in_range (s0 : SStd) (ss : List SStd)
    (q0 : QMid) (qs : List QMid) :
    ((∃ r ∈ q0 :: qs,
        listMin1 s0.ts (ss.map (·.ts)) ≤ r.ts ∧ r.ts ≤ listMax1 s0.ts (ss.map (·.ts))) →
      alignQualityTimestamps (s0 :: ss) (q0 :: qs) = q0 :: qs)
    ∧ ((∀ r ∈ q0 :: qs,
        ¬(listMin1 s0.ts (ss.map (·.ts)) ≤ r.ts ∧ r.ts ≤ listMax1 s0.ts (ss.map (·.ts)))) →
      ((alignQualityTimestamps (s0 :: ss) (q0 :: qs)).map QMid.ts
          = (q0 :: qs).map (fun r => r.ts
              + (listMax1 s0.ts (ss.map (·.ts)) - listMax1 q0.ts (qs.map (·.ts))))
        ∧ tsMaxD 0 (alignQualityTimestamps (s0 :: ss) (q0 :: qs))
            = listMax1 s0.ts (ss.map (·.ts)))) := by
  constructor
  · intro hex
    have hov : ((q0 :: qs).any fun r =>
        decide (listMin1 s0.ts (ss.map (·.ts)) ≤ r.ts) &&
          decide (r.ts ≤ listMax1 s0.ts (ss.map (·.ts)))) = true := by
      rw [List.any_eq_true]
      rcases hex with ⟨r, hr, h1, h2⟩
      exact ⟨r, hr, by simp [h1, h2]⟩
    simp only [alignQualityTimestamps]
    rw [if_pos hov]
  · intro hall
    have hov : ((q0 :: qs).any fun r =>
        decide (listMin1 s0.ts (ss.map (·.ts)) ≤ r.ts) &&
          decide (r.ts ≤ listMax1 s0.ts (ss.map (·.ts)))) = false := by
      rw [Bool.eq_false_iff]
      intro hc
      rcases List.any_eq_true.mp hc with ⟨r, hr, hb⟩
      simp only [Bool.and_eq_true, decide_eq_true_eq] at hb
      exact hall r hr hb
    have halign : alignQualityTimestamps (s0 :: ss) (q0 :: qs)
        = (q0 :: qs).map (fun r => { r with ts := r.ts
            + (listMax1 s0.ts (ss.map (·.ts)) - listMax1 q0.ts (qs.map (·.ts))) }) := by
      simp only [alignQualityTimestamps]
      rw [if_neg (by rw [hov]; exact Bool.false_ne_true)]
    constructor
    · rw [halign, List.map_map]
      rfl
    · rw [halign]
      show tsMaxD 0 ({ q0 with ts := q0.ts + _ } :: qs.map _) = _
      show listMax1 (q0.ts + (listMax1 s0.ts (ss.map (·.ts)) - listMax1 q0.ts (qs.map (·.ts))))
          ((qs.map fun r => { r with ts := r.ts
              + (listMax1 s0.ts (ss.map (·.ts)) - listMax1 q0.ts (qs.map (·.ts))) }).map QMid.ts) = _
      rw [List.map_map]
      have hmm2 : (qs.map (QMid.ts ∘ fun r => { r with ts := r.ts
          + (listMax1 s0.ts (ss.map (·.ts)) - listMax1 q0.ts (qs.map (·.ts))) }))
          = (qs.map (·.ts)).map (· + (listMax1 s0.ts (ss.map (·.ts))
              - listMax1 q0.ts (qs.map (·.ts)))) := by
        rw [List.map_map]
        rfl
      rw [hmm2, listMax1_map_add]
      omega

/-- Sensor row of the C2 witness: a single day-10 timestamp. -/
def c2ws0 : SStd := ⟨864000, some "machine_1", some "Line_1"⟩

/-- First quality row of the C2 witness (day 1). -/
def c2wq0 : QMid := ⟨86400, "pass", none, .null, none⟩

/-- Second quality row of the C2 witness (day 1, later). -/
def c2wq1 : QMid := ⟨90000, "fail", some "fault", .null, none⟩

/-- Witness for the amended C2: day-1 quality data against day-10
sensor data is shifted so that the two maxima coincide. -/
theorem align_shift_iff_no_point_in_range_witness :
    (∀ r ∈ c2wq0 :: [c2wq1],
        ¬(listMin1 c2ws0.ts (([] : List SStd).map (·.ts)) ≤ r.ts ∧
          r.ts ≤ listMax1 c2ws0.ts (([] : List SStd).map (·.ts))))
    ∧ ((alignQualityTimestamps (c2ws0 :: []) (c2wq0 :: [c2wq1])).map QMid.ts
        = (c2wq0 :: [c2wq1]).map (fun r => r.ts
            + (listMax1 c2ws0.ts (([] : List SStd).map (·.ts))
              - listMax1 c2wq0.ts ([c2wq1].map (·.ts))))
      ∧ tsMaxD 0 (alignQualityTimestamps (c2ws0 :: []) (c2wq0 :: [c2wq1]))
          = listMax1 c2ws0.ts (([] : List SStd).map (·.ts))) :=
  ⟨by decide, (align_shift_iff_no_point_in_range c2ws0 [] c2wq0 [c2wq1]).2 (by decide)⟩

/-! ## Claim C3: result vocabulary invariant -/

theorem qDerivedRows_result (f : QFrame) :
    ∀ y ∈ qDerivedRows f, ∃ q ∈ f.rows, y.result = deriveResult f q := by
  intro y hy
  rcases List.mem_filterMap.mp hy with ⟨q, hq, he⟩
  rcases hts : q.ts with _ | tv <;> rw [hts] at he
  · simp at he
  · simp only [Option.map_some'] at he
    injection he with he
    exact ⟨q, hq, by rw [← he]⟩

theorem align_result_mem (sensor : List SStd) (rows : List QMid) :
    ∀ x ∈ alignQualityTimestamps sensor rows, ∃ y ∈ rows, x.result = y.result := by
  intro x hx
  match sensor, rows with
  | [], rows =>
    simp only [alignQualityTimestamps] at hx
    exact ⟨x, hx, rfl⟩
  | _ :: _, [] =>
    simp only [alignQualityTimestamps] at hx
    exact absurd hx (List.not_mem_nil x)
  | s :: ss, q :: qs =>
    simp only [alignQualityTimestamps] at hx
    split at hx
    · exact ⟨x, hx, rfl⟩
    · rcases List.mem_map.mp hx with ⟨y, hy, he⟩
      exact ⟨y, hy, by rw [← he]⟩

theorem qProject_result_mem (rs : List QId) (r : QOut) (hr : r ∈ qProject rs) :
    ∃ u ∈ rs, r.result = u.result := by
  rcases List.mem_filterMap.mp hr with ⟨u, hu, he⟩
  refine ⟨u, hu, ?_⟩
  rcases hm : u.machine with _ | mv
  · rw [hm] at he; simp at he
  · rcases hl : u.line with _ | lv
    · rw [hm, hl] at he; simp at he
    · rw [hm, hl] at he
      simp only [Option.some.injEq] at he
      rw [← he]

theorem qRederiveLine_result_mem (rs : List QId) :
    ∀ u ∈ qRederiveLine rs, ∃ y ∈ rs, u.result = y.result := by
  intro u hu
  rcases List.mem_map.mp hu with ⟨y, hy, he⟩
  exact ⟨y, hy, by rw [← he]⟩

theorem qBackfillRow_result (sensor : List SStd) (r : QMid) :
    (qBackfillRow sensor r).result = r.result := by
  unfold qBackfillRow
  split <;> rfl

theorem mem_map_result_qmid {g : QMid → QId} (hg : ∀ r, (g r).result = r.result)
    (l : List QMid) : ∀ u ∈ l.map g, ∃ y ∈ l, u.result = y.result := by
  intro u hu
  rcases List.mem_map.mp hu with ⟨y, hy, he⟩
  exact ⟨y, hy, by rw [← he, hg]⟩

/-- Projection after the optional line re-derivation keeps result
values of the underlying rows. -/
theorem qProject_line_stage_result (b : Prop) [Decidable b] (rs : List QId) (r : QOut)
    (hr : r ∈ qProject (if b then qRederiveLine rs else rs)) :
    ∃ u ∈ rs, r.result = u.result := by
  split at hr
  · rcases qProject_result_mem _ r hr with ⟨u, hu, he1⟩
    rcases qRederiveLine_result_mem _ u hu with ⟨w, hw, he2⟩
    exact ⟨w, hw, by rw [he1, he2]⟩
  · exact qProject_result_mem _ r hr

/-- Every result value in the output of `transform_quality_data` is the
derived result of some input row: the alignment, backfill, line and
projection stages never touch the result column. -/
theorem transform_result_from_input (f : QFrame) (sensor : List SStd) (out : List QOut)
    (hok : transformQualityData f sensor = .ok out) :
    ∀ r ∈ out, ∃ q ∈ f.rows, r.result = deriveResult f q := by
  intro r hr
  have step : ∀ u ∈ alignQualityTimestamps sensor (qDerivedRows f),
      ∃ q ∈ f.rows, u.result = deriveResult f q := by
    intro u hu
    rcases align_result_mem sensor (qDerivedRows f) u hu with ⟨y, hy, he⟩
    rcases qDerivedRows_result f y hy with ⟨q, hq, he2⟩
    exact ⟨q, hq, by rw [he, he2]⟩
  simp only [transformQualityData] at hok
  split at hok
  · -- backfill needed
    split at hok
    · -- sensor empty
      simp only [Except.ok.injEq] at hok
      subst hok
      rcases qProject_result_mem _ r hr with ⟨u, hu, he1⟩
      rcases qRederiveLine_result_mem _ u hu with ⟨w, hw, he2⟩
      rcases mem_map_result_qmid (g := fun r => ⟨r.ts, r.result, r.defect, none, none⟩)
          (fun _ => rfl) _ w hw with ⟨y, hy, he3⟩
      rcases step y hy with ⟨q, hq, he4⟩
      exact ⟨q, hq, by rw [he1, he2, he3, he4]⟩
    · -- sensor nonempty: either the machine-column collision error or
      -- the backfill from the sensor lookup
      split at hok
      · simp at hok
      · simp only [Except.ok.injEq] at hok
        subst hok
        rcases qProject_line_stage_result _ _ r hr with ⟨w, hw, he2⟩
        rcases mem_map_result_qmid (fun x => qBackfillRow_result _ x) _ w hw
          with ⟨y, hy, he3⟩
        rcases step y hy with ⟨q, hq, he4⟩
        exact ⟨q, hq, by rw [he2, he3, he4]⟩
  · -- machine column used directly
    simp only [Except.ok.injEq] at hok
    subst hok
    rcases qProject_line_stage_result _ _ r hr with ⟨w, hw, he2⟩
    rcases mem_map_result_qmid (fun _ => rfl) _ w hw with ⟨y, hy, he3⟩
    rcases step y hy with ⟨q, hq, he4⟩
    exact ⟨q, hq, by rw [he2, he3, he4]⟩

/-- Input frame of the C3 counterexample: a `result` column holding the
text `unknown`. -/
def c3x : QFrame :=
  ⟨true, false, false, true, false,
   [⟨some 0, "unknown", none, none, .v "machine_1" none, none⟩]⟩

/-- C3 is false as stated: the canonicalization maps only the four
synonyms, so a result value outside the synonym list survives verbatim;
here the accepted input produces an output row whose result is
`unknown`, which is neither `pass` nor `fail`. -/
theorem transform_result_not_canonical :
    transformQualityData c3x [] = .ok [⟨0, "Line_1", "machine_1", "unknown", none⟩]
    ∧ ("unknown" ≠ "pass" ∧ "unknown" ≠ "fail") :=
  ⟨rfl, by decide⟩

/-- C3 (amended): every output row of `transform_quality_data` has
result `pass` or `fail` PROVIDED that, when a result column exists,
every input result value canonicalizes into {pass, fail} (i.e. it is
one of pass/fail/passed/failed/ok/ng up to case and surrounding
whitespace); when no result column exists (fault-flag column or global
default) the invariant holds unconditionally.  Other result text passes
through unchanged, so the unconditional claim fails. -/
theorem transform_result_vocabulary (f : QFrame) (sensor : List SStd) (out : List QOut)
    (hok : transformQualityData f sensor = .ok out)
    (hres : f.hasResult = true →
      ∀ q ∈ f.rows, canonResult q.result = "pass" ∨ canonResult q.result = "fail") :
    ∀ r ∈ out, r.result = "pass" ∨ r.result = "fail" := by
  intro r hr
  rcases transform_result_from_input f sensor out hok r hr with ⟨q, hq, he⟩
  rw [he]
  unfold deriveResult
  cases hR : f.hasResult
  · cases hL : f.hasLabel
    · simp [hR, hL]
    · simp only [hR, hL, Bool.false_eq_true, if_false, if_true]
      split
      · exact Or.inr rfl
      · exact Or.inl rfl
  · simp only [hR, if_true]
    exact hres hR q hq

/-- Input frame of the C3 witness: a synonym result value `Passed`. -/
def c3w : QFrame :=
  ⟨true, false, false, true, false,
   [⟨some 0, "Passed", none, none, .v "machine_1" none, none⟩]⟩

/-- Output of the C3 witness. -/
def c3wOut : List QOut := [⟨0, "Line_1", "machine_1", "pass", none⟩]

/-- Witness for the amended C3. -/
theorem transform_result_vocabulary_witness :
    transformQualityData c3w [] = Except.ok c3wOut
    ∧ ((c3wOut.get ⟨0, by decide⟩).result = "pass"
        ∨ (c3wOut.get ⟨0, by decide⟩).result = "fail") :=
  ⟨rfl, transform_result_vocabulary c3w [] c3wOut rfl (by decide) _
    (List.get_mem c3wOut 0 (by decide))⟩

/-! ## Claim C6: forward-fill correctness -/

/-- The pre-fill values of the rows of one machine group, in row
order. -/
def groupPres (l : List FRow) (m : String) : List Vals :=
  l.filterMap (fun r => if r.machine = some m then some r.pre else none)

/-- Prepending a row of machine `m` prepends its pre-fill values to
the group. -/
theorem groupPres_cons_eq (r : FRow) (l : List FRow) (m : String)
    (hm : r.machine = some m) :
    groupPres (r :: l) m = r.pre :: groupPres l m := by
  unfold groupPres
  rw [List.filterMap_cons]
  simp [hm]

/-- Prepending a row of another machine (or of no machine) leaves the
group unchanged. -/
theorem groupPres_cons_ne (r : FRow) (l : List FRow) (m : String)
    (hm : r.machine ≠ some m) :
    groupPres (r :: l) m = groupPres l m := by
  unfold groupPres
  rw [List.filterMap_cons]
  simp [hm]

/-- The grouped forward fill computes, for every row carrying machine
`m`, the fold of the fill step over the pre-fill values of the rows of
group `m` up to and including that row, starting from the carried
values of `m`. -/
theorem ffillGrouped_spec (l : List PRow) :
    ∀ (carry : String → Vals) (i : Nat) (h : i < (ffillGrouped carry l).length) (m : String),
      ((ffillGrouped carry l)[i]).machine = some m →
      ((ffillGrouped carry l)[i]).fin =
        (groupPres ((ffillGrouped carry l).take (i + 1)) m).foldl fillVals (carry m) := by
  induction l with
  | nil =>
    intro carry i h
    simp [ffillGrouped] at h
  | cons r rs ih =>
    intro carry i h m hm
    rcases hrm : r.machine with _ | mx
    · simp only [ffillGrouped, hrm] at h hm ⊢
      rcases i with _ | j
      · simp at hm
      · simp only [List.getElem_cons_succ, List.take_succ_cons] at hm ⊢
        rw [List.length_cons, Nat.add_lt_add_iff_right] at h
        rw [groupPres_cons_ne _ _ _ (by simp)]
        exact ih carry j h m hm
    · simp only [ffillGrouped, hrm] at h hm ⊢
      rcases i with _ | j
      · simp only [List.getElem_cons_zero] at hm ⊢
        have hmx : mx = m := by simpa using hm
        subst hmx
        rw [List.take_succ_cons, List.take_zero, groupPres_cons_eq _ _ _ rfl]
        rfl
      · simp only [List.getElem_cons_succ, List.take_succ_cons] at hm ⊢
        rw [List.length_cons, Nat.add_lt_add_iff_right] at h
        have hrec := ih (fun k => if k = mx then fillVals (carry mx) r.pre else carry k)
          j h m hm
        by_cases hmm : m = mx
        · subst hmm
          rw [groupPres_cons_eq _ _ _ rfl, List.foldl_cons, hrec]
          simp
        · rw [groupPres_cons_ne _ _ _ (fun hc => hmm (Option.some.inj hc).symm), hrec]
          simp [hmm]

/-- The global forward fill computes, for every row, the fold of the
fill step over the pre-fill values of all rows up to and including that
row. -/
theorem ffillGlobal_spec (l : List PRow) :
    ∀ (carry : Vals) (i : Nat) (h : i < (ffillGlobal carry l).length),
      ((ffillGlobal carry l)[i]).fin =
        (((ffillGlobal carry l).take (i + 1)).map FRow.pre).foldl fillVals carry := by
  induction l with
  | nil =>
    intro carry i h
    simp [ffillGlobal] at h
  | cons r rs ih =>
    intro carry i h
    simp only [ffillGlobal] at h ⊢
    match i with
    | 0 => simp
    | j + 1 =>
      simp only [List.getElem_cons_succ, List.take_succ_cons, List.map_cons,
        List.foldl_cons]
      rw [List.length_cons, Nat.add_lt_add_iff_right] at h
      exact ih (fillVals carry r.pre) j h

/-- Last non-missing value of a list of optional values, after an
initial carry; the forward fill of one cell is exactly this fold. -/
def lastSome (c : Option Rat) (l : List (Option Rat)) : Option Rat := l.foldl fillCarry c

/-- With no initial carry, the fill fold picks exactly the most recent
non-missing value of the list (the last element of the present
values). -/
theorem lastSome_none_eq_getLast (l : List (Option Rat)) :
    lastSome none l = (l.filterMap id).getLast? := by
  induction l using List.reverseRecOn with
  | nil => rfl
  | append_singleton as a ih =>
    show (as ++ [a]).foldl fillCarry none = _
    rw [List.foldl_append, List.filterMap_append]
    rcases a with _ | v
    · have h1 : List.foldl fillCarry (List.foldl fillCarry none as) [none]
          = List.foldl fillCarry none as := rfl
      have h2 : (List.filterMap id as
            ++ List.filterMap (id : Option Rat → Option Rat) [none]).getLast?
          = (List.filterMap id as).getLast? := by simp
      rw [h1, h2]
      exact ih
    · have h1 : List.foldl fillCarry (List.foldl fillCarry none as) [some v] = some v := rfl
      have h2 : List.filterMap (id : Option Rat → Option Rat) [some v] = [v] := rfl
      rw [h1, h2, List.getLast?_concat]

/-- Projections commute with the fold of the whole-row fill step. -/
theorem foldl_fillVals_proj (proj : Vals → Option Rat)
    (hproj : ∀ c x, proj (fillVals c x) = fillCarry (proj c) (proj x)) :
    ∀ (l : List Vals) (c : Vals), proj (l.foldl fillVals c) = lastSome (proj c) (l.map proj) := by
  intro l
  induction l with
  | nil => intro c; rfl
  | cons a as ih =>
    intro c
    show proj (as.foldl fillVals (fillVals c a)) = (as.map proj).foldl fillCarry (fillCarry (proj c) (proj a))
    rw [ih (fillVals c a), hproj]
    rfl

theorem fillStage_length_eq (f : SensorFrame) :
    (fillStage f).length = (cleanRows f).length := by
  rw [← cleanRows_toFRow f, List.length_map]

theorem cleanRows_getElem_toFRow (f : SensorFrame) (i : Nat)
    (h : i < (cleanRows f).length) (h2 : i < (fillStage f).length) :
    toFRow ((cleanRows f)[i]) = (fillStage f)[i] := by
  have h3 : i < ((cleanRows f).map toFRow).length := by
    rw [List.length_map]
    exact h
  calc toFRow ((cleanRows f)[i]) = ((cleanRows f).map toFRow)[i] := by
        rw [List.getElem_map]
    _ = (fillStage f)[i] := List.getElem_of_eq (cleanRows_toFRow f) h3

/-- The machine-group pre-fill values of a prefix of the cleaned
rows. -/
def groupPresC (l : List CleanRow) (m : String) : List Vals :=
  l.filterMap (fun r => if r.machine = some m then some r.pre else none)

theorem groupPresC_eq (f : SensorFrame) (k : Nat) (m : String) :
    groupPresC ((cleanRows f).take k) m = groupPres ((fillStage f).take k) m := by
  rw [← cleanRows_toFRow f, ← List.map_take]
  unfold groupPres groupPresC
  rw [List.filterMap_map]
  rfl

theorem cleanRows_take_map_pre (f : SensorFrame) (k : Nat) :
    ((cleanRows f).take k).map CleanRow.pre = ((fillStage f).take k).map FRow.pre := by
  rw [← cleanRows_toFRow f, ← List.map_take, List.map_map]
  rfl

/-- C6: forward-fill correctness of `clean_sensor_data`.  For every row
of the output (rows are in sorted, i.e. chronological, order within
each machine) and every sensor column: when a `machine_id` column
exists and the row has machine `m`, the filled value is the most recent
non-missing pre-fill value among the rows of machine `m` up to and
including this row (so a value is never taken from another machine nor
from a later row, and it stays missing when the group has no earlier
non-missing value); when no `machine_id` column exists, the same holds
over all rows globally. -/
theorem clean_forward_fill (f : SensorFrame) (i : Nat) (h : i < (cleanRows f).length) :
    (f.hasMachine = true → ∀ m, ((cleanRows f)[i]).machine = some m →
      (((cleanRows f)[i]).fin.t
          = (((groupPresC ((cleanRows f).take (i + 1)) m).map Vals.t).filterMap id).getLast?
        ∧ ((cleanRows f)[i]).fin.p
          = (((groupPresC ((cleanRows f).take (i + 1)) m).map Vals.p).filterMap id).getLast?
        ∧ ((cleanRows f)[i]).fin.v
          = (((groupPresC ((cleanRows f).take (i + 1)) m).map Vals.v).filterMap id).getLast?
        ∧ ((cleanRows f)[i]).fin.w
          = (((groupPresC ((cleanRows f).take (i + 1)) m).map Vals.w).filterMap id).getLast?))
    ∧ (f.hasMachine = false →
      (((cleanRows f)[i]).fin.t
          = (((((cleanRows f).take (i + 1)).map CleanRow.pre).map Vals.t).filterMap id).getLast?
        ∧ ((cleanRows f)[i]).fin.p
          = (((((cleanRows f).take (i + 1)).map CleanRow.pre).map Vals.p).filterMap id).getLast?
        ∧ ((cleanRows f)[i]).fin.v
          = (((((cleanRows f).take (i + 1)).map CleanRow.pre).map Vals.v).filterMap id).getLast?
        ∧ ((cleanRows f)[i]).fin.w
          = (((((cleanRows f).take (i + 1)).map CleanRow.pre).map Vals.w).filterMap id).getLast?)) := by
  have h2 : i < (fillStage f).length := by rw [fillStage_length_eq]; exact h
  have htr := cleanRows_getElem_toFRow f i h h2
  have hfin : ((cleanRows f)[i]).fin = ((fillStage f)[i]).fin := by
    rw [← htr]; rfl
  have hmach : ((cleanRows f)[i]).machine = ((fillStage f)[i]).machine := by
    rw [← htr]; rfl
  constructor
  · intro hM m hm
    have hfg : fillStage f = ffillGrouped (fun _ => Vals.none4) (sortStage f) := by
      rw [fillStage, hM]
      rfl
    have h3 : i < (ffillGrouped (fun _ => Vals.none4) (sortStage f)).length := by
      rw [← hfg]; exact h2
    have hm2 : ((ffillGrouped (fun _ => Vals.none4) (sortStage f))[i]).machine = some m := by
      rw [← List.getElem_of_eq hfg h2, ← hmach]; exact hm
    have hspec := ffillGrouped_spec (sortStage f) (fun _ => Vals.none4) i h3 m hm2
    have hfin2 : ((cleanRows f)[i]).fin
        = (groupPres ((fillStage f).take (i + 1)) m).foldl fillVals Vals.none4 := by
      rw [hfin, List.getElem_of_eq hfg h2, hspec, hfg]
    rw [hfin2, ← groupPresC_eq]
    refine ⟨?_, ?_, ?_, ?_⟩
    · rw [foldl_fillVals_proj Vals.t (fun _ _ => rfl), ← lastSome_none_eq_getLast]
      rfl
    · rw [foldl_fillVals_proj Vals.p (fun _ _ => rfl), ← lastSome_none_eq_getLast]
      rfl
    · rw [foldl_fillVals_proj Vals.v (fun _ _ => rfl), ← lastSome_none_eq_getLast]
      rfl
    · rw [foldl_fillVals_proj Vals.w (fun _ _ => rfl), ← lastSome_none_eq_getLast]
      rfl
  · intro hM
    have hfg : fillStage f = ffillGlobal Vals.none4 (sortStage f) := by
      rw [fillStage, hM]
      rfl
    have h3 : i < (ffillGlobal Vals.none4 (sortStage f)).length := by
      rw [← hfg]; exact h2
    have hspec := ffillGlobal_spec (sortStage f) Vals.none4 i h3
    have hfin2 : ((cleanRows f)[i]).fin
        = (((fillStage f).take (i + 1)).map FRow.pre).foldl fillVals Vals.none4 := by
      rw [hfin, List.getElem_of_eq hfg h2, hspec, hfg]
    rw [hfin2, ← cleanRows_take_map_pre]
    refine ⟨?_, ?_, ?_, ?_⟩
    · rw [foldl_fillVals_proj Vals.t (fun _ _ => rfl), ← lastSome_none_eq_getLast]
      rfl
    · rw [foldl_fillVals_proj Vals.p (fun _ _ => rfl), ← lastSome_none_eq_getLast]
      rfl
    · rw [foldl_fillVals_proj Vals.v (fun _ _ => rfl), ← lastSome_none_eq_getLast]
      rfl
    · rw [foldl_fillVals_proj Vals.w (fun _ _ => rfl), ← lastSome_none_eq_getLast]
      rfl

/-- Input frame of the C6 witness: two machines with interleaved,
unsorted rows; machine_2 has a missing temperature at its later
timestamp. -/
def c6w : SensorFrame :=
  ⟨true, true, true, false, false, false, false,
   [⟨some 2, some "machine_2", .null, .null, .null, .null, .null⟩,
    ⟨some 1, some "machine_1", .num 10, .null, .null, .null, .null⟩,
    ⟨some 1, some "machine_2", .num 99, .null, .null, .null, .null⟩,
    ⟨some 2, some "machine_1", .num 20, .null, .null, .null, .null⟩]⟩

/-- Witness for C6: in sorted order row 3 is machine_2 at timestamp 2;
its missing temperature is filled from machine_2 at timestamp 1 (the
value 99), not from the adjacent machine_1 rows. -/
theorem clean_forward_fill_witness :
    c6w.hasMachine = true
    ∧ ((cleanRows c6w).get ⟨3, by decide⟩).machine = some "machine_2"
    ∧ ((cleanRows c6w).get ⟨3, by decide⟩).pre.t = none
    ∧ ((cleanRows c6w).get ⟨3, by decide⟩).fin.t
        = (((groupPresC ((cleanRows c6w).take 4) "machine_2").map Vals.t).filterMap id).getLast?
    ∧ ((cleanRows c6w).get ⟨3, by decide⟩).fin.t = some 99 :=
  ⟨rfl, by decide, by decide,
    ((clean_forward_fill c6w 3 (by decide)).1 rfl "machine_2" (by decide)).1,
    by decide⟩

/-! ## Claim C7: range validation and quality labeling -/

/-- Input frame of the C7 failing input: timestamps out of order, the
later row has an out-of-range temperature (200), the earlier row a
valid one (50). -/
def c7x : SensorFrame :=
  ⟨true, false, true, false, false, false, false,
   [⟨some 2, none, .num 200, .null, .null, .null, .null⟩,
    ⟨some 1, none, .num 50, .null, .null, .null, .null⟩]⟩

/-- C7: evaluation at the failing input.  The range validation itself
behaves as claimed (200 is outside [0, 150] and becomes missing: the
pre-fill value of the timestamp-2 row is `none`, later filled with 50),
but the data_quality labels land on the WRONG rows: the row at
timestamp 1, never missing, is labeled `estimated`, while the filled
row at timestamp 2 is labeled `good`.  The cause is in
`clean_sensor_data`: `was_estimated` is aligned to the original index
order while `still_missing` and the output rows are in sorted order,
and `np.where` consumes both positionally, so whenever the sort
permutes the rows the estimated/good labels are permuted relative to
the rows they describe. -/
theorem clean_quality_labels_misassigned :
    (cleanRows c7x).map (fun r => (r.ts, r.pre.t, r.fin.t, r.dq))
      = [(some 1, some 50, some 50, "estimated"), (some 2, none, some 50, "good")]
    ∧ cleanSensorData c7x
        = .ok ⟨true, false, true, false, false, false, false, cleanRows c7x⟩ :=
  ⟨by decide, rfl⟩

/-! ## Claim C8: defect rate -/

/-- C8: for every group produced by `calculate_hourly_summary`, the
defect rate is 0 when the group has no checks and
`defect_count / total_checks * 100` otherwise. -/
theorem hourly_defect_rate (rows : List JRow) (s : HSum)
    (hs : s ∈ calculateHourlySummary rows) :
    (s.totalChecks = 0 → s.defectRate = 0)
    ∧ (0 < s.totalChecks →
        s.defectRate = (s.defectCount : Rat) / (s.totalChecks : Rat) * 100) := by
  rcases List.mem_map.mp hs with ⟨k, hk, he⟩
  subst he
  constructor
  · intro h0
    simp only [mkSummary] at h0 ⊢
    rw [if_neg (by omega)]
  · intro hpos
    simp only [mkSummary] at hpos ⊢
    rw [if_pos hpos]

/-- Joined rows of the C8 witness: one hour group with four checks of
which one failed, plus a later hour with a reading that was never
checked. -/
def c8rows : List JRow :=
  [⟨some 0, some "Line_1", some "machine_1", some 50, none, none, some "fail"⟩,
   ⟨some 60, some "Line_1", some "machine_1", some 51, none, none, some "pass"⟩,
   ⟨some 120, some "Line_1", some "machine_1", none, none, none, some "pass"⟩,
   ⟨some 180, some "Line_1", some "machine_1", some 53, none, none, some "pass"⟩,
   ⟨some 7200, some "Line_1", some "machine_1", some 53, none, none, none⟩]

/-- First summary group of the C8 witness. -/
def c8sum : HSum := (calculateHourlySummary c8rows).get ⟨0, by decide⟩

/-- Witness for C8: total_checks = 4 and defect_count = 1 give a
defect rate of exactly 25. -/
theorem hourly_defect_rate_witness :
    c8sum ∈ calculateHourlySummary c8rows
    ∧ c8sum.totalChecks = 4 ∧ c8sum.defectCount = 1 ∧ c8sum.defectRate = 25 := by
  have hmem : c8sum ∈ calculateHourlySummary c8rows :=
    List.get_mem (calculateHourlySummary c8rows) 0 (by decide)
  have h := (hourly_defect_rate c8rows c8sum hmem).2 (by decide)
  refine ⟨hmem, by decide, by decide, ?_⟩
  rw [h]
  have h1 : c8sum.defectCount = 1 := by decide
  have h2 : c8sum.totalChecks = 4 := by decide
  rw [h1, h2]
  norm_num

/-! ## Claim C10: null and blank machine ids in standardization -/

theorem length_filterMap_ts (g : StdInRow → Int → StdRow) :
    ∀ l : List StdInRow,
      (l.filterMap (fun r => r.ts.map (g r))).length = l.countP (fun r => r.ts.isSome) := by
  intro l
  induction l with
  | nil => rfl
  | cons r rs ih =>
    rcases hts : r.ts with _ | tv <;>
      simp [List.filterMap_cons, List.countP_cons, hts, ih]

/-- C10: `standardize_sensor_data` keeps rows with a missing or blank
machine id (dropping only rows with unparseable timestamps); such rows
get a missing machine id and a missing line id, and their record id is
computed from the textual rendering of the missing identities, so two
rows sharing a timestamp and both lacking a machine id receive the same
record id regardless of their sensor values. -/
theorem standardize_null_machine_ids (f : StdFrame) (out : List StdRow)
    (hok : standardizeSensorData f = .ok out) :
    out.length = f.rows.countP (fun r => r.ts.isSome)
    ∧ toMachineStr MVal.null = none
    ∧ (∀ s n, lowerStr (stripStr s) = "" → toMachineStr (MVal.v s n) = none)
    ∧ (∀ r ∈ out, r.machine = none →
        r.line = none ∧ r.recordId = makeRecordId r.ts none none)
    ∧ (∀ r1 ∈ out, ∀ r2 ∈ out, r1.machine = none → r2.machine = none →
        r1.ts = r2.ts → r1.recordId = r2.recordId) := by
  unfold standardizeSensorData at hok
  split at hok
  · exact absurd hok (by simp)
  · split at hok
    · exact absurd hok (by simp)
    · simp only [Except.ok.injEq] at hok
      subst hok
      have hmem : ∀ r ∈ f.rows.filterMap (fun r =>
          r.ts.map (fun tv =>
            let m := toMachineStr r.machine
            let l := deriveLine m
            (⟨makeRecordId tv l m, tv, l, m, r.temperature, r.pressure, r.vibration,
              r.power, if f.hasDQ then r.dq else "good"⟩ : StdRow))),
          r.machine = none →
          r.line = none ∧ r.recordId = makeRecordId r.ts none none := by
        intro r hr hmach
        rcases List.mem_filterMap.mp hr with ⟨src, _, he⟩
        rcases hts : src.ts with _ | tv
        · rw [hts] at he
          simp at he
        · rw [hts] at he
          simp only [Option.map_some'] at he
          injection he with he
          subst he
          have hm2 : toMachineStr src.machine = none := hmach
          constructor
          · show deriveLine (toMachineStr src.machine) = none
            rw [hm2]
            exact rfl
          · show makeRecordId tv (deriveLine (toMachineStr src.machine))
                (toMachineStr src.machine) = makeRecordId tv none none
            rw [hm2]
            exact rfl
      refine ⟨length_filterMap_ts _ f.rows, rfl, ?_, hmem, ?_⟩
      · intro s n hs
        simp only [toMachineStr]
        rw [hs]
        simp
      · intro r1 h1 r2 h2 hm1 hm2 hts
        rcases hmem r1 h1 hm1 with ⟨_, hr1⟩
        rcases hmem r2 h2 hm2 with ⟨_, hr2⟩
        rw [hr1, hr2, hts]

/-- Input frame of the C10 witness: a missing machine id and a blank
machine id at the same timestamp with different temperatures, plus an
unparseable timestamp and a normal machine row. -/
def c10w : StdFrame :=
  ⟨true, true, false,
   [⟨some 5, .null, some 1, none, none, none, "good"⟩,
    ⟨some 5, .v "  " none, some 2, none, none, none, "good"⟩,
    ⟨none, .v "17" (some 17), none, none, none, none, "good"⟩,
    ⟨some 9, .v "17" (some 17), none, none, none, none, "good"⟩]⟩

/-- Output rows of the C10 witness. -/
def c10wOut : List StdRow :=
  [⟨"5|None|None", 5, none, none, some 1, none, none, none, "good"⟩,
   ⟨"5|None|None", 5, none, none, some 2, none, none, none, "good"⟩,
   ⟨"9|Line_2|machine_17", 9, some "Line_2", some "machine_17",
     none, none, none, none, "good"⟩]

/-- Witness for C10: the unparseable-timestamp row is dropped, the
null-machine and blank-machine rows survive with missing identities and
equal record ids although their temperatures differ. -/
theorem standardize_null_machine_ids_witness :
    standardizeSensorData c10w = Except.ok c10wOut
    ∧ c10wOut.length = c10w.rows.countP (fun r => r.ts.isSome)
    ∧ (c10wOut.get ⟨0, by decide⟩).machine = none
    ∧ (c10wOut.get ⟨1, by decide⟩).machine = none
    ∧ (c10wOut.get ⟨0, by decide⟩).temperature ≠ (c10wOut.get ⟨1, by decide⟩).temperature
    ∧ (c10wOut.get ⟨0, by decide⟩).recordId = (c10wOut.get ⟨1, by decide⟩).recordId :=
  ⟨rfl, (standardize_null_machine_ids c10w c10wOut rfl).1, by decide, by decide, by decide,
    (standardize_null_machine_ids c10w c10wOut rfl).2.2.2.2
      (c10wOut.get ⟨0, by decide⟩) (List.get_mem c10wOut 0 (by decide))
      (c10wOut.get ⟨1, by decide⟩) (List.get_mem c10wOut 1 (by decide))
      (by decide) (by decide) (by decide)⟩

end Etl
